import Mathlib

/-!
Verification of the document-batch classification and conversion-report
pipeline of `test_kmrl_documents.py` (the KMRL document processing test
suite).  The Python source is shallowly embedded: pure helpers become Lean
functions, the external converter and CLI subprocess become function-valued
parameters, directory contents become explicit lists of entries, and the
per-file result dictionaries become structures with `Option` fields for the
keys that are only present on one branch.
-/

namespace KMRL

/-- Containment of one character list in another, scanning positions left to
right; mirrors the semantics of the Python `in` operator on strings. -/
def listContainsSub (pat : List Char) : List Char → Bool
  | [] => pat.isEmpty
  | c :: rest => pat.isPrefixOf (c :: rest) || listContainsSub pat rest

/-- The Python expression `pat in s`, as `strContainsSub s pat`. -/
def strContainsSub (s pat : String) : Bool :=
  listContainsSub pat.data s.data

/-- ASCII lower-casing of a string, character by character: the effect of
the Python `.lower()` calls in the source on the filenames at hand. -/
def strLower (s : String) : String :=
  String.mk (s.data.map Char.toLower)

/-- The category assignment performed inline in `get_test_documents`
(lines 53-75 of `test_kmrl_documents.py`): the extension is lower-cased
once (`file_path.suffix.lower()`), the filename is lower-cased at each
substring test (`file_name.lower()`), and the branches are tried in source
order. -/
def categorize (fileName : String) (suffix : String) : String :=
  let fileExt := strLower suffix
  if fileExt = ".jpg" ∨ fileExt = ".jpeg" ∨ fileExt = ".png" then
    if strContainsSub (strLower fileName) "mal" then
      "malayalam_ocr"
    else if strContainsSub (strLower fileName) "handwrite" ||
        strContainsSub (strLower fileName) "handwritten" then
      "handwritten_ocr"
    else if strContainsSub (strLower fileName) "scan" then
      "scanned_document"
    else
      "image_ocr"
  else if fileExt = ".dwg" then
    "engineering_drawing"
  else if fileExt = ".docx" then
    "word_document"
  else if fileExt = ".pptx" then
    "powerpoint_presentation"
  else if fileExt = ".csv" then
    "data_file"
  else
    "other"

/-- First match wins over an ordered rule table: the first rule whose
predicate accepts the (already lower-cased) filename and extension gives the
category, and an unmatched input falls through to `"other"`. -/
def firstMatch (name ext : String) : List ((String → String → Bool) × String) → String
  | [] => "other"
  | (cond, cat) :: rest => if cond name ext then cat else firstMatch name ext rest

/-- Whether the extension is one of the image extensions of rule 1. -/
def isImageExt (ext : String) : Bool :=
  ext = ".jpg" || ext = ".jpeg" || ext = ".png"

/-- Modelled from the spec: the classification rule table exactly as the
specification lists it (rules 1a-1d, 2, 3, 4, 5 of section 4.1), each rule a
predicate on the lower-cased filename and extension together with the
category it assigns; used only to state the refinement claim about
`categorize`. -/
def specRules : List ((String → String → Bool) × String) :=
  [ (fun n e => isImageExt e && strContainsSub n "mal", "malayalam_ocr"),
    (fun n e => isImageExt e &&
        (strContainsSub n "handwrite" || strContainsSub n "handwritten"), "handwritten_ocr"),
    (fun n e => isImageExt e && strContainsSub n "scan", "scanned_document"),
    (fun _ e => isImageExt e, "image_ocr"),
    (fun _ e => e = ".dwg", "engineering_drawing"),
    (fun _ e => e = ".docx", "word_document"),
    (fun _ e => e = ".pptx", "powerpoint_presentation"),
    (fun _ e => e = ".csv", "data_file") ]

/-- The specification's classifier: first-match-wins over `specRules`,
applied to the lower-cased filename and extension. -/
def classifySpec (fileName : String) (suffix : String) : String :=
  firstMatch (strLower fileName) (strLower suffix) specRules

/-- One entry of the scanned directory, as observed by
`get_test_documents`: its base name, its suffix, its size, and the result
of the `is_file()` test (true exactly for the entries the scan keeps). -/
structure Entry where
  name : String
  suffix : String
  size : Nat
  isFile : Bool
deriving Repr, DecidableEq

/-- The per-file record built at lines 80-85 of the source: path, name,
size and lower-cased extension.  The path is rendered as the name here
(the directory prefix plays no further role in the pipeline). -/
structure FileRecord where
  path : String
  name : String
  size : Nat
  extension : String
deriving Repr, DecidableEq

/-- The dictionary value appended for one kept entry. -/
def recordOfEntry (e : Entry) : FileRecord :=
  { path := e.name, name := e.name, size := e.size, extension := strLower e.suffix }

/-- What a directory entry can resolve to, distinguishing regular files
from the symbolic-link cases that the `is_file()` test must arbitrate. -/
inductive EntryKind where
  | regularFile
  | directory
  | symlinkToFile
  | symlinkToDir
  | brokenSymlink
deriving Repr, DecidableEq

/-- The documented semantics of Python's `Path.is_file()`, the test at
line 52 of the source: it follows symbolic links, so it is true for a
regular file and for a symlink pointing to a regular file, and false for
directories, symlinks to directories and broken symlinks. -/
def pyIsFile (k : EntryKind) : Bool :=
  match k with
  | EntryKind.regularFile => true
  | EntryKind.symlinkToFile => true
  | EntryKind.directory => false
  | EntryKind.symlinkToDir => false
  | EntryKind.brokenSymlink => false

/-- A directory entry with its resolved kind made explicit, refining
`Entry` for reasoning about which entries the `is_file()` test keeps. -/
structure DirEntry where
  name : String
  suffix : String
  size : Nat
  kind : EntryKind
deriving Repr, DecidableEq

/-- The entry as `get_test_documents` observes it: the `isFile` bit is the
result of the `Path.is_file()` call on the entry. -/
def entryOf (d : DirEntry) : Entry :=
  { name := d.name, suffix := d.suffix, size := d.size, isFile := pyIsFile d.kind }

/-- Append a record under its category key: if the key is present its list
is extended at the end, otherwise a new key with a one-element list is
created at the end (Python dictionaries preserve insertion order). -/
def insertAppend (docs : List (String × List FileRecord)) (cat : String)
    (r : FileRecord) : List (String × List FileRecord) :=
  match docs with
  | [] => [(cat, [r])]
  | (c, rs) :: rest =>
      if c = cat then (c, rs ++ [r]) :: rest else (c, rs) :: insertAppend rest cat r

/-- The scanning loop of `get_test_documents` (lines 51-85): walk the
directory entries in order, skip entries for which `is_file()` is false,
and group the kept ones by category. -/
def scanLoop (docs : List (String × List FileRecord)) : List Entry → List (String × List FileRecord)
  | [] => docs
  | e :: rest =>
      if e.isFile then
        scanLoop (insertAppend docs (categorize e.name e.suffix) (recordOfEntry e)) rest
      else
        scanLoop docs rest

/-- The function `get_test_documents`, with the directory contents passed in explicitly
as the list of entries that `iterdir()` yields. -/
def get_test_documents (entries : List Entry) : List (String × List FileRecord) :=
  scanLoop [] entries

/-- Result of one successful converter call: the Markdown export and the
plain-text export of the converted document. -/
structure ConvResult where
  markdown : String
  text : String
deriving Repr, DecidableEq

/-- A converter failure, as caught at line 132: the exception message
(`str(e)`) and the exception class name (`type(e).__name__`). -/
structure ConvError where
  message : String
  kind : String
deriving Repr, DecidableEq

/-- The external converter capability: `DocumentConverter().convert(path)`
together with the two export calls, which either returns both renderings or
fails with an exception. -/
abbrev Converter := String → Except ConvError ConvResult

/-- The per-file result dictionary of `test_document_conversion`.  Keys
present only on the success branch or only on the failure branch are
`Option`-valued. -/
structure ConversionOutcome where
  file_name : String
  category : String
  file_size : Nat
  conversion_successful : Bool
  markdown_length : Option Nat
  text_length : Option Nat
  has_content : Option Bool
  preview : Option String
  error : Option String
  error_type : Option String
  timestamp : String
deriving Repr, DecidableEq

/-- The function `test_document_conversion` (lines 89-146): one conversion attempt for
one file.  The converter call is the only fallible operation; its failure
is caught and turned into a failure outcome, so the function is total.  The
timestamp of the attempt is passed in (`datetime.now().isoformat()`). -/
def test_document_conversion (conv : Converter) (ts : String) (filePath category : String)
    (doc : FileRecord) : ConversionOutcome :=
  match conv filePath with
  | Except.ok res =>
      { file_name := doc.name
        category := category
        file_size := doc.size
        conversion_successful := true
        markdown_length := some res.markdown.length
        text_length := some res.text.length
        has_content := some (decide (0 < res.text.trim.length))
        preview := some (if res.text.length > 200 then res.text.take 200 ++ "..." else res.text)
        error := none
        error_type := none
        timestamp := ts }
  | Except.error e =>
      { file_name := doc.name
        category := category
        file_size := doc.size
        conversion_successful := false
        markdown_length := none
        text_length := none
        has_content := none
        preview := none
        error := some e.message
        error_type := some e.kind
        timestamp := ts }

/-- The function `test_category` (lines 148-169): attempt every document of the
category once, in order, collecting the outcomes. -/
def test_category (conv : Converter) (ts : String) (category : String)
    (docs : List FileRecord) : List ConversionOutcome :=
  docs.map (fun d => test_document_conversion conv ts d.path category d)

/-- The loop of `main` (lines 402-405): run `test_category` on every
grouped category, producing the `all_results` mapping. -/
def runAll (conv : Converter) (ts : String)
    (documents : List (String × List FileRecord)) : List (String × List ConversionOutcome) :=
  documents.map (fun p => (p.1, test_category conv ts p.1 p.2))

/-- The expression `sum(len(results) for results in all_results.values())` at line 252. -/
def total_documents (all : List (String × List ConversionOutcome)) : Nat :=
  (all.map (fun p => p.2.length)).sum

/-- The expression `sum(1 for r in results if r['conversion_successful'])`, the per-category
successful count used at lines 161, 254, 268 and 296. -/
def categorySuccessCount (results : List ConversionOutcome) : Nat :=
  (results.filter (fun r => r.conversion_successful)).length

/-- Total successful conversions across all categories (lines 253-256). -/
def total_successful (all : List (String × List ConversionOutcome)) : Nat :=
  (all.map (fun p => categorySuccessCount p.2)).sum

/-- Concatenation of the grouped per-category lists. -/
def joinVals {α : Type} (l : List (String × List α)) : List α :=
  (l.map Prod.snd).flatten

/-- Rounding a rational to one decimal place: the effect of the ".1f"
format through which every success rate is reported. -/
def roundTo1 (q : ℚ) : ℚ :=
  ((round (q * 10) : ℤ) : ℚ) / 10

/-- The assignment `success_rate = (successful/total*100) if total > 0 else 0` (line 270),
with the division carried out exactly on rationals. -/
def categorySuccessRate (results : List ConversionOutcome) : ℚ :=
  if 0 < results.length then
    (categorySuccessCount results : ℚ) / (results.length : ℚ) * 100
  else 0

/-- The per-category success rate as it appears in the report, rounded to
one decimal place. -/
def reported_success_rate (results : List ConversionOutcome) : ℚ :=
  roundTo1 (categorySuccessRate results)

/-- The list `critical_categories` of line 290. -/
def critical_categories : List String :=
  ["word_document", "powerpoint_presentation", "data_file"]

/-- Dictionary membership and lookup (`category in all_results`,
`all_results[category]`) on the insertion-ordered association list. -/
def lookupCat (all : List (String × List ConversionOutcome)) (c : String) :
    Option (List ConversionOutcome) :=
  match all with
  | [] => none
  | (k, v) :: rest => if k = c then some v else lookupCat rest c

/-- The loop at lines 291-301: `critical_success` starts true and is set to
false whenever a critical category present in the run has zero successful
conversions. -/
def criticalSuccessLoop (all : List (String × List ConversionOutcome)) : Bool :=
  critical_categories.foldl
    (fun acc category =>
      match lookupCat all category with
      | some results => if categorySuccessCount results = 0 then false else acc
      | none => acc)
    true

/-- Helper for reasoning about `criticalSuccessLoop`: one critical category
does not pull the flag down iff it is absent or has a success. -/
def criticalOk (all : List (String × List ConversionOutcome)) (category : String) : Bool :=
  match lookupCat all category with
  | some results => decide (categorySuccessCount results ≠ 0)
  | none => true

/-- The readiness condition tested at line 334:
`critical_success and total_successful >= total_documents * 0.7`, with the
threshold comparison carried out exactly on rationals. -/
def kmrl_ready (all : List (String × List ConversionOutcome)) : Bool :=
  criticalSuccessLoop all &&
    decide ((total_documents all : ℚ) * (7 / 10) ≤ (total_successful all : ℚ))

/-- One candidate file for the CLI exercise: its path rendering, base name
and suffix, as seen by the selection loop of `test_cli_interface`. -/
structure CliFile where
  path : String
  name : String
  suffix : String
deriving Repr, DecidableEq

/-- Result of one `subprocess.run([python, "-m", "docling", path],
timeout=30)` call: a completed process with exit code and captured streams,
a `TimeoutExpired`, or some other raised exception. -/
inductive CliRunResult where
  | completed (returncode : Int) (stdout stderr : String)
  | timedOut
  | raised (message : String)
deriving Repr, DecidableEq

/-- The subprocess capability: invoked with the file path and the timeout
bound passed to `subprocess.run`. -/
abbrev CliRunner := String → Nat → CliRunResult

/-- The selection loop at lines 182-187: walk the directory entries in
order, collect those whose lower-cased suffix is `.txt`, `.csv` or `.md`,
and stop as soon as 3 are collected. -/
def collectCliFiles (acc : List CliFile) : List CliFile → List CliFile
  | [] => acc
  | f :: rest =>
      if strLower f.suffix ∈ [".txt", ".csv", ".md"] then
        if 3 ≤ (acc ++ [f]).length then acc ++ [f]
        else collectCliFiles (acc ++ [f]) rest
      else collectCliFiles acc rest

/-- The files actually attempted: `cli_test_files[:3]` (line 195). -/
def cliSelected (entries : List CliFile) : List CliFile :=
  (collectCliFiles [] entries).take 3

/-- The per-file CLI result dictionary of `test_cli_interface`; keys present
only on some branches are `Option`-valued. -/
structure CliOutcome where
  file_name : String
  cli_successful : Bool
  output_length : Option Nat
  preview : Option String
  error : Option String
  return_code : Option Int
deriving Repr, DecidableEq

/-- One iteration of the loop at lines 195-242: run the CLI with a 30-unit
timeout; a zero exit code is a success, a nonzero exit code records the
stderr and the return code, a `TimeoutExpired` records the error string
`"Timeout"`, and any other exception records its message. -/
def cliAttempt (run : CliRunner) (f : CliFile) : CliOutcome :=
  match run f.path 30 with
  | CliRunResult.completed rc out err =>
      if rc = 0 then
        { file_name := f.name
          cli_successful := true
          output_length := some out.length
          preview := some (if out.length > 200 then out.take 200 ++ "..." else out)
          error := none
          return_code := none }
      else
        { file_name := f.name
          cli_successful := false
          output_length := none
          preview := none
          error := some err
          return_code := some rc }
  | CliRunResult.timedOut =>
      { file_name := f.name
        cli_successful := false
        output_length := none
        preview := none
        error := some "Timeout"
        return_code := none }
  | CliRunResult.raised msg =>
      { file_name := f.name
        cli_successful := false
        output_length := none
        preview := none
        error := some msg
        return_code := none }

/-- The function `test_cli_interface` (lines 171-244), with the directory contents and
the subprocess capability passed in explicitly. -/
def test_cli_interface (run : CliRunner) (entries : List CliFile) : List CliOutcome :=
  (cliSelected entries).map (cliAttempt run)

/-- Fault model for persisting the serialized report.  `save_results`
(lines 369-378) opens `kmrl_docling_test_results.json` with mode `"w"` -
truncating whatever was there - and then `json.dump` streams the
serialization into the handle, so a write that fails after `n` characters
leaves the first `n` characters of the serialization behind. -/
inductive WriteBehavior where
  | succeeds
  | failsAfter (n : Nat) (message : String)
deriving Repr, DecidableEq

/-- The observable filesystem state: the content of the report file, or
`none` when the file does not exist. -/
structure ReportFileState where
  reportFile : Option String
deriving Repr, DecidableEq

/-- State transition of `save_results`: the new content of the report file
together with the raised error message, if any (`save_results` installs no
handler, so a raised error propagates to the caller). -/
def save_results_write (serialized : String) (w : WriteBehavior)
    (_fs : ReportFileState) : ReportFileState × Option String :=
  match w with
  | WriteBehavior.succeeds => ({ reportFile := some serialized }, none)
  | WriteBehavior.failsAfter n msg => ({ reportFile := some (serialized.take n) }, some msg)

/-- A converter that always fails, used to instantiate the fault-handling
theorems on concrete inputs. -/
def failConv : Converter :=
  fun _ => Except.error { message := "boom", kind := "RuntimeError" }

/-- A converter that always succeeds with fixed renderings, used to
instantiate theorems on concrete inputs. -/
def okConv : Converter :=
  fun _ => Except.ok { markdown := "# hi", text := "hi" }

/-- A concrete file record used to instantiate theorems. -/
def sampleDoc : FileRecord :=
  { path := "a.docx", name := "a.docx", size := 10, extension := ".docx" }

/-- A concrete successful outcome used to instantiate theorems. -/
def okOutcome : ConversionOutcome :=
  { file_name := "a.csv"
    category := "data_file"
    file_size := 4
    conversion_successful := true
    markdown_length := some 2
    text_length := some 2
    has_content := some true
    preview := some "hi"
    error := none
    error_type := none
    timestamp := "t0" }

/-- A concrete failed outcome used to instantiate theorems. -/
def badOutcome : ConversionOutcome :=
  { file_name := "b.csv"
    category := "data_file"
    file_size := 4
    conversion_successful := false
    markdown_length := none
    text_length := none
    has_content := none
    preview := none
    error := some "boom"
    error_type := some "RuntimeError"
    timestamp := "t0" }

/-- A subprocess capability that always times out, used to instantiate the
CLI theorems on concrete inputs. -/
def timeoutRunner : CliRunner :=
  fun _ _ => CliRunResult.timedOut

/-- A concrete candidate file for the CLI exercise. -/
def sampleTxt : CliFile :=
  { path := "notes.txt", name := "notes.txt", suffix := ".txt" }

/-- A second concrete candidate file for the CLI exercise. -/
def sampleMd : CliFile :=
  { path := "readme.md", name := "readme.md", suffix := ".md" }

theorem string_length_pos (s : String) : 0 < s.length ↔ s ≠ "" := by
  rw [String.length, List.length_pos]
  constructor
  · intro h hs
    apply h
    rw [hs]
  · intro h hd
    exact h (String.ext hd)

theorem joinVals_insertAppend (docs : List (String × List FileRecord)) (cat : String)
    (r : FileRecord) :
    List.Perm (joinVals (insertAppend docs cat r)) (joinVals docs ++ [r]) := by
  induction docs with
  | nil => simp [insertAppend, joinVals]
  | cons p rest ih =>
      obtain ⟨c, rs⟩ := p
      by_cases hc : c = cat
      · simp only [insertAppend, if_pos hc, joinVals, List.map_cons, List.flatten_cons,
          List.append_assoc]
        exact List.Perm.append_left rs List.perm_append_comm
      · simp only [insertAppend, if_neg hc, joinVals, List.map_cons, List.flatten_cons,
          List.append_assoc]
        exact List.Perm.append_left rs ih

theorem joinVals_scanLoop (entries : List Entry) :
    ∀ docs : List (String × List FileRecord),
      List.Perm (joinVals (scanLoop docs entries))
        (joinVals docs ++ (entries.filter (fun e => e.isFile)).map recordOfEntry) := by
  induction entries with
  | nil => intro docs; simp [scanLoop]
  | cons e rest ih =>
      intro docs
      by_cases hf : e.isFile
      · simp only [scanLoop, if_pos hf, List.filter_cons, hf, List.map_cons]
        refine (ih _).trans ?_
        refine ((joinVals_insertAppend docs _ _).append_right _).trans ?_
        simp [List.append_assoc]
      · simp only [scanLoop, if_neg hf, List.filter_cons, hf, Bool.false_eq_true,
          if_false]
        exact ih docs

theorem total_documents_runAll (conv : Converter) (ts : String)
    (documents : List (String × List FileRecord)) :
    total_documents (runAll conv ts documents) = (joinVals documents).length := by
  simp [total_documents, runAll, test_category, joinVals, List.length_flatten,
    List.map_map, Function.comp_def, List.length_map]

theorem insertAppend_nonempty (docs : List (String × List FileRecord)) (cat : String)
    (r : FileRecord) (h : ∀ p ∈ docs, p.2 ≠ []) :
    ∀ p ∈ insertAppend docs cat r, p.2 ≠ [] := by
  induction docs with
  | nil => simp [insertAppend]
  | cons q rest ih =>
      obtain ⟨c, rs⟩ := q
      by_cases hc : c = cat
      · simp only [insertAppend, if_pos hc]
        intro p hp
        rcases List.mem_cons.mp hp with hp | hp
        · simp [hp]
        · exact h p (List.mem_cons_of_mem _ hp)
      · simp only [insertAppend, if_neg hc]
        intro p hp
        rcases List.mem_cons.mp hp with hp | hp
        · subst hp; exact h (c, rs) (List.mem_cons_self _ _)
        · exact ih (fun q hq => h q (List.mem_cons_of_mem _ hq)) p hp

theorem scanLoop_nonempty (entries : List Entry) :
    ∀ docs : List (String × List FileRecord), (∀ p ∈ docs, p.2 ≠ []) →
      ∀ p ∈ scanLoop docs entries, p.2 ≠ [] := by
  induction entries with
  | nil => intro docs h; simpa [scanLoop] using h
  | cons e rest ih =>
      intro docs h
      by_cases hf : e.isFile
      · simp only [scanLoop, if_pos hf]
        exact ih _ (insertAppend_nonempty docs _ _ h)
      · simp only [scanLoop, if_neg hf]
        exact ih docs h

/-- C1: classification is a total deterministic function of the lower-cased
filename and extension, and it coincides, on every input, with
first-match-wins application of the specification's ordered rule table
(image extensions refined by the "mal" / "handwrite" / "handwritten" /
"scan" substrings, then `.dwg`, `.docx`, `.pptx`, `.csv`, with everything
else falling through to `other`). -/
theorem categorize_eq_classifySpec (fileName suffix : String) :
    categorize fileName suffix = classifySpec fileName suffix := by
  have himg : isImageExt (strLower suffix) = true ↔
      (strLower suffix = ".jpg" ∨ strLower suffix = ".jpeg" ∨ strLower suffix = ".png") := by
    simp [isImageExt, or_assoc]
  by_cases h : strLower suffix = ".jpg" ∨ strLower suffix = ".jpeg" ∨ strLower suffix = ".png"
  · have himgT : isImageExt (strLower suffix) = true := himg.mpr h
    by_cases hm : strContainsSub (strLower fileName) "mal" = true <;>
    by_cases hh1 : strContainsSub (strLower fileName) "handwrite" = true <;>
    by_cases hh2 : strContainsSub (strLower fileName) "handwritten" = true <;>
    by_cases hsc : strContainsSub (strLower fileName) "scan" = true <;>
      simp [categorize, classifySpec, specRules, firstMatch, himgT, hm, hh1, hh2, hsc, h]
  · have himgF : isImageExt (strLower suffix) = false := by
      rcases Bool.eq_false_or_eq_true (isImageExt (strLower suffix)) with ht | hf
      · exact absurd (himg.mp ht) h
      · exact hf
    push_neg at h
    simp [categorize, classifySpec, specRules, firstMatch, himgF, h.1, h.2.1, h.2.2]

theorem scanKept_count_perm (conv : Converter) (ts : String) (entries : List Entry) :
    total_documents (runAll conv ts (get_test_documents entries))
        = (entries.filter (fun e => e.isFile)).length
    ∧ List.Perm (joinVals (get_test_documents entries))
        ((entries.filter (fun e => e.isFile)).map recordOfEntry) := by
  have hperm : List.Perm (joinVals (get_test_documents entries))
      ((entries.filter (fun e => e.isFile)).map recordOfEntry) := by
    have h := joinVals_scanLoop entries []
    simpa [joinVals] using h
  refine ⟨?_, hperm⟩
  rw [total_documents_runAll, hperm.length_eq, List.length_map]

/-- C2 counterexample: the scan does not exclude symbolic links.  Python's
`Path.is_file()` follows symlinks, so a symlink pointing to a regular file
passes the test: a directory holding one such symlink and no regular file
at all produces a report whose total document count is 1, while the number
of regular files in the directory is 0 - refuting both the exclusion
clause and the claimed count equation at a concrete input. -/
theorem scan_counts_symlinked_file :
    total_documents (runAll okConv "t0" (get_test_documents
        [entryOf { name := "link.docx", suffix := ".docx", size := 5,
                   kind := EntryKind.symlinkToFile }])) = 1
    ∧ ([({ name := "link.docx", suffix := ".docx", size := 5,
           kind := EntryKind.symlinkToFile } : DirEntry)].filter
        (fun d => decide (d.kind = EntryKind.regularFile))).length = 0 := by
  exact ⟨rfl, rfl⟩

/-- C2 (amended): the non-recursive directory scan turns every entry that
passes the `is_file()` test - every regular file and every symlink
resolving to a regular file, but no subdirectory, directory symlink or
broken symlink - into exactly one file record (the grouped records are a
permutation of one record per kept entry), and the total document count in
the run report (the sum of per-category outcome counts) equals the number
of entries passing `is_file()`. -/
theorem scan_report_count (conv : Converter) (ts : String)
    (dirEntries : List DirEntry) :
    total_documents (runAll conv ts (get_test_documents (dirEntries.map entryOf)))
        = (dirEntries.filter (fun d => pyIsFile d.kind)).length
    ∧ List.Perm (joinVals (get_test_documents (dirEntries.map entryOf)))
        ((dirEntries.filter (fun d => pyIsFile d.kind)).map
          (fun d => recordOfEntry (entryOf d)))
    ∧ (∀ d : DirEntry, pyIsFile d.kind = true ↔
        (d.kind = EntryKind.regularFile ∨ d.kind = EntryKind.symlinkToFile)) := by
  have hfilter : (dirEntries.map entryOf).filter (fun e => e.isFile)
      = (dirEntries.filter (fun d => pyIsFile d.kind)).map entryOf := by
    rw [List.filter_map]
    rfl
  have h := scanKept_count_perm conv ts (dirEntries.map entryOf)
  refine ⟨?_, ?_, fun d => ?_⟩
  · rw [h.1, hfilter, List.length_map]
  · have hp := h.2
    rw [hfilter, List.map_map] at hp
    exact hp
  · obtain ⟨n, s, sz, k⟩ := d
    cases k <;> simp [pyIsFile]

/-- C3: every file receives exactly one conversion attempt; the outcome of
position `i` is exactly the outcome of converting document `i`, independent
of every other file's outcome, and a converter failure is caught at the
file boundary and recorded as a failure outcome carrying the error message
and error kind (the per-file function is total, so the failure never
propagates). -/
theorem per_file_fault_isolation (conv : Converter) (ts category : String)
    (docs : List FileRecord) :
    (test_category conv ts category docs).length = docs.length
    ∧ (∀ i : Nat, (test_category conv ts category docs)[i]? =
        (docs[i]?).map (fun d => test_document_conversion conv ts d.path category d))
    ∧ (∀ d : FileRecord, ∀ e : ConvError, conv d.path = Except.error e →
        (test_document_conversion conv ts d.path category d).conversion_successful = false
        ∧ (test_document_conversion conv ts d.path category d).error = some e.message
        ∧ (test_document_conversion conv ts d.path category d).error_type = some e.kind) := by
  refine ⟨by simp [test_category], fun i => ?_, fun d e he => ?_⟩
  · simp [test_category]
  · simp [test_document_conversion, he]

theorem per_file_fault_isolation_witness :
    (test_category failConv "t0" "word_document" [sampleDoc]).length = 1
    ∧ (test_document_conversion failConv "t0" sampleDoc.path "word_document"
        sampleDoc).error = some "boom"
    ∧ (test_document_conversion failConv "t0" sampleDoc.path "word_document"
        sampleDoc).error_type = some "RuntimeError" := by
  have h := per_file_fault_isolation failConv "t0" "word_document" [sampleDoc]
  have h3 := h.2.2 sampleDoc { message := "boom", kind := "RuntimeError" } rfl
  exact ⟨h.1, h3.2.1, h3.2.2⟩

/-- C4: every conversion outcome carries the file name, category, file size,
success flag and timestamp; on success it additionally carries the character
counts of the two renderings, `has_content` true iff the trimmed text is
non-empty, and a preview that is the full text when at most 200 characters
long and otherwise the first 200 characters followed by an ellipsis marker,
with the failure-only keys absent; on failure it additionally carries the
error message and kind, with the success-only keys absent. -/
theorem outcome_field_presence (conv : Converter) (ts filePath category : String)
    (doc : FileRecord) :
    ((test_document_conversion conv ts filePath category doc).file_name = doc.name
      ∧ (test_document_conversion conv ts filePath category doc).category = category
      ∧ (test_document_conversion conv ts filePath category doc).file_size = doc.size
      ∧ (test_document_conversion conv ts filePath category doc).timestamp = ts)
    ∧ (∀ res : ConvResult, conv filePath = Except.ok res →
        (test_document_conversion conv ts filePath category doc).conversion_successful = true
        ∧ (test_document_conversion conv ts filePath category doc).markdown_length
            = some res.markdown.length
        ∧ (test_document_conversion conv ts filePath category doc).text_length
            = some res.text.length
        ∧ ((test_document_conversion conv ts filePath category doc).has_content = some true
            ↔ res.text.trim ≠ "")
        ∧ (test_document_conversion conv ts filePath category doc).preview
            = some (if res.text.length ≤ 200 then res.text else res.text.take 200 ++ "...")
        ∧ (test_document_conversion conv ts filePath category doc).error = none
        ∧ (test_document_conversion conv ts filePath category doc).error_type = none)
    ∧ (∀ e : ConvError, conv filePath = Except.error e →
        (test_document_conversion conv ts filePath category doc).conversion_successful = false
        ∧ (test_document_conversion conv ts filePath category doc).error = some e.message
        ∧ (test_document_conversion conv ts filePath category doc).error_type = some e.kind
        ∧ (test_document_conversion conv ts filePath category doc).markdown_length = none
        ∧ (test_document_conversion conv ts filePath category doc).text_length = none
        ∧ (test_document_conversion conv ts filePath category doc).has_content = none
        ∧ (test_document_conversion conv ts filePath category doc).preview = none) := by
  refine ⟨?_, fun res hres => ?_, fun e he => ?_⟩
  · cases hc : conv filePath <;> simp [test_document_conversion, hc]
  · refine ⟨by simp [test_document_conversion, hres], by simp [test_document_conversion, hres],
      by simp [test_document_conversion, hres], ?_, ?_,
      by simp [test_document_conversion, hres], by simp [test_document_conversion, hres]⟩
    · simp only [test_document_conversion, hres, Option.some.injEq, decide_eq_true_eq]
      exact string_length_pos res.text.trim
    · simp only [test_document_conversion, hres, Option.some.injEq]
      by_cases hlen : res.text.length ≤ 200
      · rw [if_pos hlen, if_neg (by omega)]
      · rw [if_neg hlen, if_pos (by omega)]
  · simp [test_document_conversion, he]

theorem outcome_field_presence_witness :
    (test_document_conversion okConv "t0" sampleDoc.path "word_document"
        sampleDoc).text_length = some 2
    ∧ (test_document_conversion okConv "t0" sampleDoc.path "word_document"
        sampleDoc).preview = some "hi"
    ∧ (test_document_conversion okConv "t0" sampleDoc.path "word_document"
        sampleDoc).error = none
    ∧ (test_document_conversion failConv "t0" sampleDoc.path "word_document"
        sampleDoc).preview = none := by
  have hok := (outcome_field_presence okConv "t0" sampleDoc.path "word_document"
      sampleDoc).2.1 { markdown := "# hi", text := "hi" } rfl
  have hbad := (outcome_field_presence failConv "t0" sampleDoc.path "word_document"
      sampleDoc).2.2 { message := "boom", kind := "RuntimeError" } rfl
  refine ⟨hok.2.2.1, ?_, hok.2.2.2.2.2.1, hbad.2.2.2.2.2.2⟩
  rw [hok.2.2.2.2.1]
  decide

/-- C5: the reported per-category success rate is `successful / total * 100`
rounded to one decimal place; in particular 2 successes out of 3 files
report 66.7, and a category with zero outcomes reports rate 0 through the
explicit guard (the rate function is total, so no division-by-zero error
can be raised). -/
theorem success_rate_spec (results : List ConversionOutcome) :
    (results.length ≠ 0 →
      reported_success_rate results
        = roundTo1 ((categorySuccessCount results : ℚ) / (results.length : ℚ) * 100))
    ∧ (results.length = 0 → reported_success_rate results = 0)
    ∧ (results.length = 3 → categorySuccessCount results = 2 →
        reported_success_rate results = 66.7) := by
  refine ⟨fun h => ?_, fun h => ?_, fun h3 h2 => ?_⟩
  · rw [reported_success_rate, categorySuccessRate, if_pos (Nat.pos_of_ne_zero h)]
  · rw [reported_success_rate, categorySuccessRate, if_neg (by omega), roundTo1]
    norm_num
  · rw [reported_success_rate, categorySuccessRate, if_pos (by omega), h3, h2, roundTo1]
    rw [round_eq]
    norm_num

theorem success_rate_spec_witness :
    reported_success_rate [okOutcome, okOutcome, badOutcome] = 66.7
    ∧ reported_success_rate [] = 0 := by
  refine ⟨(success_rate_spec [okOutcome, okOutcome, badOutcome]).2.2 rfl (by decide),
    (success_rate_spec []).2.1 rfl⟩

theorem criticalLoop_foldl (all : List (String × List ConversionOutcome)) :
    ∀ (cats : List String) (acc : Bool),
      cats.foldl (fun acc category =>
        match lookupCat all category with
        | some results => if categorySuccessCount results = 0 then false else acc
        | none => acc) acc
      = (acc && cats.all (criticalOk all)) := by
  intro cats
  induction cats with
  | nil => intro acc; simp
  | cons c cs ih =>
      intro acc
      rw [List.foldl_cons, ih, List.all_cons]
      cases hc : lookupCat all c with
      | none =>
          simp [criticalOk, hc, Bool.and_assoc, Bool.and_left_comm]
      | some results =>
          by_cases h0 : categorySuccessCount results = 0 <;>
            simp [criticalOk, hc, h0, Bool.and_assoc, Bool.and_left_comm]

theorem criticalSuccessLoop_eq_all (all : List (String × List ConversionOutcome)) :
    criticalSuccessLoop all = critical_categories.all (criticalOk all) := by
  rw [criticalSuccessLoop, criticalLoop_foldl]
  simp

/-- C6: the run is judged ready for deployment iff every critical category
(`word_document`, `powerpoint_presentation`, `data_file`) that is present
in the results has at least one successful conversion and the number of
successful conversions is at least 0.7 times the total number of
documents. -/
theorem readiness_spec (all : List (String × List ConversionOutcome)) :
    kmrl_ready all = true ↔
      ((∀ category ∈ critical_categories, ∀ results : List ConversionOutcome,
          lookupCat all category = some results → 0 < categorySuccessCount results)
        ∧ (total_documents all : ℚ) * (7 / 10) ≤ (total_successful all : ℚ)) := by
  rw [kmrl_ready, Bool.and_eq_true, criticalSuccessLoop_eq_all, List.all_eq_true,
    decide_eq_true_eq]
  constructor
  · rintro ⟨hcrit, hnum⟩
    refine ⟨fun c hc results hr => ?_, hnum⟩
    have hok := hcrit c hc
    rw [criticalOk, hr] at hok
    simp only [decide_eq_true_eq] at hok
    exact Nat.pos_of_ne_zero hok
  · rintro ⟨hcrit, hnum⟩
    refine ⟨fun c hc => ?_, hnum⟩
    rw [criticalOk]
    cases hr : lookupCat all c with
    | none => rfl
    | some results =>
        simpa using Nat.pos_iff_ne_zero.mp (hcrit c hc results hr)

theorem readiness_spec_witness :
    kmrl_ready [("word_document", [okOutcome])] = true
    ∧ (total_documents [("word_document", [okOutcome])] : ℚ) * (7 / 10)
        ≤ (total_successful [("word_document", [okOutcome])] : ℚ) := by
  have h1 : criticalSuccessLoop [("word_document", [okOutcome])] = true := by decide
  have h2 : (total_documents [("word_document", [okOutcome])] : ℚ) * (7 / 10)
      ≤ (total_successful [("word_document", [okOutcome])] : ℚ) := by
    have e1 : total_documents [("word_document", [okOutcome])] = 1 := rfl
    have e2 : total_successful [("word_document", [okOutcome])] = 1 := rfl
    rw [e1, e2]
    norm_num
  have hready : kmrl_ready [("word_document", [okOutcome])] = true := by
    rw [kmrl_ready, h1, decide_eq_true h2]
    rfl
  exact ⟨hready, ((readiness_spec [("word_document", [okOutcome])]).mp hready).2⟩

theorem collectCliFiles_suffix (l : List CliFile) :
    ∀ acc : List CliFile, (∀ f ∈ acc, strLower f.suffix ∈ [".txt", ".csv", ".md"]) →
      ∀ f ∈ collectCliFiles acc l, strLower f.suffix ∈ [".txt", ".csv", ".md"] := by
  induction l with
  | nil => intro acc h; simpa [collectCliFiles] using h
  | cons g rest ih =>
      intro acc h
      by_cases hg : strLower g.suffix ∈ [".txt", ".csv", ".md"]
      · have hacc : ∀ f ∈ acc ++ [g], strLower f.suffix ∈ [".txt", ".csv", ".md"] := by
          intro f hf
          rcases List.mem_append.mp hf with hf | hf
          · exact h f hf
          · rw [List.mem_singleton.mp hf]
            exact hg
        by_cases h3 : 3 ≤ (acc ++ [g]).length
        · simpa only [collectCliFiles, if_pos hg, if_pos h3] using hacc
        · simpa only [collectCliFiles, if_pos hg, if_neg h3] using ih _ hacc
      · simpa only [collectCliFiles, if_neg hg] using ih acc h

/-- C7: the CLI exercise attempts at most 3 files, all selected files have
lower-cased suffix .txt, .csv or .md, each invocation consults the
subprocess capability only at the fixed timeout bound 30, a timeout is
recorded as an unsuccessful outcome with error `"Timeout"` and no return
code, and an ordinary CLI failure is recorded with the stderr text and its
nonzero return code - so the two failure kinds are distinguished. -/
theorem cli_selection_timeout (run : CliRunner) (entries : List CliFile) :
    (test_cli_interface run entries).length ≤ 3
    ∧ (∀ f ∈ cliSelected entries, strLower f.suffix ∈ [".txt", ".csv", ".md"])
    ∧ (∀ f : CliFile, ∀ run2 : CliRunner,
        run f.path 30 = run2 f.path 30 → cliAttempt run f = cliAttempt run2 f)
    ∧ (∀ f : CliFile, run f.path 30 = CliRunResult.timedOut →
        cliAttempt run f
          = { file_name := f.name, cli_successful := false, output_length := none,
              preview := none, error := some "Timeout", return_code := none })
    ∧ (∀ f : CliFile, ∀ rc : Int, ∀ out err : String,
        run f.path 30 = CliRunResult.completed rc out err → rc ≠ 0 →
        (cliAttempt run f).cli_successful = false
        ∧ (cliAttempt run f).error = some err
        ∧ (cliAttempt run f).return_code = some rc) := by
  refine ⟨?_, ?_, fun f run2 hr => ?_, fun f ht => ?_, fun f rc out err hc hrc => ?_⟩
  · rw [test_cli_interface, List.length_map, cliSelected]
    exact List.length_take_le 3 _
  · intro f hf
    exact collectCliFiles_suffix entries [] (by simp) f
      (List.take_subset 3 _ hf)
  · rw [cliAttempt, cliAttempt, hr]
  · rw [cliAttempt, ht]
  · rw [cliAttempt, hc]
    simp [hrc]

theorem cli_selection_timeout_witness :
    (test_cli_interface timeoutRunner [sampleTxt, sampleMd]).length ≤ 3
    ∧ cliAttempt timeoutRunner sampleTxt
        = { file_name := sampleTxt.name, cli_successful := false, output_length := none,
            preview := none, error := some "Timeout", return_code := none } := by
  have h := cli_selection_timeout timeoutRunner [sampleTxt, sampleMd]
  exact ⟨h.1, h.2.2.2.1 sampleTxt rfl⟩

/-- C8: a timeout on one CLI file is recorded as that file's outcome while
every other queued CLI file is still attempted: the outcome list has one
entry per selected file, and the outcome at every position is the attempt
of the file at that position, unaffected by the timeout at another
position. -/
theorem cli_timeout_isolation (run : CliRunner) (entries : List CliFile) :
    (test_cli_interface run entries).length = (cliSelected entries).length
    ∧ (∀ i : Nat, ∀ f : CliFile, (cliSelected entries)[i]? = some f →
        run f.path 30 = CliRunResult.timedOut →
        (test_cli_interface run entries)[i]?
          = some { file_name := f.name, cli_successful := false, output_length := none,
                   preview := none, error := some "Timeout", return_code := none }
        ∧ ∀ j : Nat, ∀ g : CliFile, (cliSelected entries)[j]? = some g →
            (test_cli_interface run entries)[j]? = some (cliAttempt run g)) := by
  refine ⟨by simp [test_cli_interface], fun i f hf ht => ⟨?_, fun j g hg => ?_⟩⟩
  · rw [test_cli_interface, List.getElem?_map, hf]
    simp [cliAttempt, ht]
  · rw [test_cli_interface, List.getElem?_map, hg]
    rfl

theorem cli_timeout_isolation_witness :
    (test_cli_interface timeoutRunner [sampleTxt, sampleMd]).length = 2
    ∧ (test_cli_interface timeoutRunner [sampleTxt, sampleMd])[1]?
        = some (cliAttempt timeoutRunner sampleMd) := by
  have h := cli_timeout_isolation timeoutRunner [sampleTxt, sampleMd]
  have hsel : (cliSelected [sampleTxt, sampleMd])[0]? = some sampleTxt := by decide
  have hsel1 : (cliSelected [sampleTxt, sampleMd])[1]? = some sampleMd := by decide
  have h2 := h.2 0 sampleTxt hsel rfl
  refine ⟨?_, h2.2 1 sampleMd hsel1⟩
  rw [h.1]
  decide

/-- C9 counterexample: persisting the report is not all-or-nothing.  With
the serialization `"ab"`, no pre-existing report file, and a write
primitive that fails after 1 character, `save_results` raises (the error
reaches the operator) but leaves the file holding `"a"` - neither absent,
as before the run, nor the complete report: a corrupt partially written
report file is left behind, because the target is opened with truncation
and serialized into directly, with no temporary file or atomic rename. -/
theorem report_write_not_atomic :
    (save_results_write "ab" (WriteBehavior.failsAfter 1 "disk full")
        { reportFile := none }).2 = some "disk full"
    ∧ (save_results_write "ab" (WriteBehavior.failsAfter 1 "disk full")
        { reportFile := none }).1.reportFile = some "a"
    ∧ some "a" ≠ ({ reportFile := none : ReportFileState }).reportFile
    ∧ some "a" ≠ some "ab" := by
  exact ⟨rfl, by decide, by decide, by decide⟩

/-- C9 (amended): if the write fails, the failure is surfaced to the
operator (it propagates out of `save_results` uncaught) and the
already-computed conversion outcomes - the serialized data - are unaffected
by the failure, but the write is not all-or-nothing: the target file is
left holding the prefix of the report written before the failure, because
the file is opened with truncation and serialized into directly. -/
theorem report_write_failure_behavior (serialized : String) (w : WriteBehavior)
    (fs : ReportFileState) :
    (w = WriteBehavior.succeeds →
      (save_results_write serialized w fs).1.reportFile = some serialized
      ∧ (save_results_write serialized w fs).2 = none)
    ∧ (∀ n : Nat, ∀ msg : String, w = WriteBehavior.failsAfter n msg →
      (save_results_write serialized w fs).2 = some msg
      ∧ (save_results_write serialized w fs).1.reportFile
          = some (serialized.take n)) := by
  refine ⟨fun h => ?_, fun n msg h => ?_⟩ <;> subst h <;> exact ⟨rfl, rfl⟩

theorem report_write_failure_behavior_witness :
    (save_results_write "ab" WriteBehavior.succeeds { reportFile := none }).1.reportFile
        = some "ab"
    ∧ (save_results_write "ab" (WriteBehavior.failsAfter 1 "disk full")
        { reportFile := none }).2 = some "disk full" := by
  have h := report_write_failure_behavior "ab" WriteBehavior.succeeds { reportFile := none }
  have h2 := report_write_failure_behavior "ab" (WriteBehavior.failsAfter 1 "disk full")
    { reportFile := none }
  exact ⟨(h.1 rfl).1, (h2.2 1 "disk full" rfl).1⟩

/-- C10: in the grouping produced by the directory scan every category key
maps to a non-empty record list (an entry is created only when a file is
appended to it), so the unguarded division by `len(results)` in
`test_category`'s summary has a positive denominator whenever it is driven
by the scan's grouping. -/
theorem grouping_values_nonempty (conv : Converter) (ts : String) (entries : List Entry) :
    ∀ p ∈ get_test_documents entries,
      p.2 ≠ [] ∧ 0 < (test_category conv ts p.1 p.2).length := by
  intro p hp
  have h := scanLoop_nonempty entries [] (by simp) p hp
  refine ⟨h, ?_⟩
  simpa [test_category] using List.length_pos.mpr h

theorem grouping_values_nonempty_witness :
    ("word_document",
        [recordOfEntry { name := "a.docx", suffix := ".docx", size := 5, isFile := true }]).2 ≠ []
    ∧ 0 < (test_category okConv "t0"
        ("word_document",
          [recordOfEntry { name := "a.docx", suffix := ".docx", size := 5, isFile := true }]).1
        ("word_document",
          [recordOfEntry { name := "a.docx", suffix := ".docx", size := 5, isFile := true }]).2).length := by
  exact grouping_values_nonempty okConv "t0"
    [{ name := "a.docx", suffix := ".docx", size := 5, isFile := true }]
    ("word_document",
      [recordOfEntry { name := "a.docx", suffix := ".docx", size := 5, isFile := true }])
    (by decide)

end KMRL
